import Mathlib

/-!
# Verification of the MTAdashboard ingestion pipeline

Shallow embedding of the core of the `MTAdashboard` repository and proofs
about it.  Each section embeds one source unit:

* `src/load/to_postgres.py` — stage-then-merge upsert and the
  replace-recent-days refresh (claims C1, C2);
* `src/extract/mta_daily.py` and `src/extract/events_daily.py` —
  `_http_get` retry loops (C3), `_pick` schema resolvers (C6),
  `fetch_mta_daily` request shape and local windowing (C10);
* `scripts/backfill.py` — `daterange_chunks` window planner (C4);
* `src/extract/mta_hourly.py` — epoch intersection (C5) and
  `_shape_and_aggregate` (C7);
* `src/transform/clean.py` — the four normalizers (C7, C8, C9).

Machine floats never carry semantic weight here: the numeric cells are
modelled as rationals (`ℚ`) with `Option` for pandas missing values (NaN),
which is faithful for the decimal data these APIs serve.
-/

namespace MTADash

/-! ## Upsert store — `src/load/to_postgres.py`

A table is a list of rows `(natural key, non-key payload)`.  `upsert`
embeds the content-level semantics of the SQL issued by
`upsert(df, table, pkey=…)` (lines 87–205): stage the batch, then

    INSERT INTO target SELECT … FROM staging
    ON CONFLICT (pkey…) DO UPDATE SET nonkey = EXCLUDED.nonkey

Every target row whose key occurs in the staged batch has its non-key
fields fully overwritten by the staged values; staged rows whose keys are
new are inserted; other target rows are untouched.  Postgres raises
(`ON CONFLICT DO UPDATE command cannot affect row a second time`) when the
staged batch itself repeats a key, and the enclosing transaction rolls
back, so that case is modelled as `none`. -/

section UpsertStore

variable {K V : Type} [DecidableEq K]

/-- First-match association lookup (a row's payload by its natural key). -/
def lookupKey (k : K) : List (K × V) → Option V
  | [] => none
  | r :: t => if r.1 = k then some r.2 else lookupKey k t

/-- The natural keys of a table, in row order. -/
def tableKeys (t : List (K × V)) : List K := t.map Prod.fst

/-- Effect of the `DO UPDATE SET … = EXCLUDED.…` clause on one target row:
if the staged batch `b` holds the row's key, the payload is overwritten by
the staged payload, else the row is untouched. -/
def applyStaged (b : List (K × V)) (r : K × V) : K × V :=
  match lookupKey r.1 b with
  | some v => (r.1, v)
  | none => r

/-- Content of the target table after the `INSERT … SELECT … ON CONFLICT`
merge of staged batch `b` into target `t`. -/
def mergeInto (t b : List (K × V)) : List (K × V) :=
  t.map (applyStaged b) ++ b.filter (fun r => decide (r.1 ∉ tableKeys t))

/-- `upsert` (`to_postgres.py` lines 87–205), keyed variant (`pkey`
provided).  `none` models the transaction failing (and rolling back) when
the staged batch repeats a natural key. -/
def upsert (t b : List (K × V)) : Option (List (K × V)) :=
  if (tableKeys b).Nodup then some (mergeInto t b) else none

/-- `upsert_replace_recent_days` (`to_postgres.py` lines 249–304): if the
batch is empty, return immediately (line 291) without deleting; otherwise
delete every target row whose date satisfies
`date_col >= current_date - interval '<days> days'` (lines 297–301) and
then `upsert` the batch (line 304).  `dateOf` reads the date column off a
row's key and `today` is `current_date`, as an absolute day number. -/
def replaceRecentDays (today : Int) (days : Nat) (dateOf : K → Int)
    (t b : List (K × V)) : Option (List (K × V)) :=
  if b.isEmpty then some t
  else upsert (t.filter (fun r => decide (¬ (today - (days : Int) ≤ dateOf r.1)))) b

omit [DecidableEq K] in
theorem tableKeys_nil : tableKeys ([] : List (K × V)) = [] := rfl

omit [DecidableEq K] in
theorem tableKeys_cons (r : K × V) (t : List (K × V)) :
    tableKeys (r :: t) = r.1 :: tableKeys t := rfl

theorem applyStaged_fst (b : List (K × V)) (r : K × V) :
    (applyStaged b r).1 = r.1 := by
  unfold applyStaged
  cases lookupKey r.1 b <;> rfl

theorem tableKeys_map_applyStaged (t b : List (K × V)) :
    tableKeys (t.map (applyStaged b)) = tableKeys t := by
  unfold tableKeys
  rw [List.map_map]
  exact List.map_congr_left fun r _ => applyStaged_fst b r

theorem lookupKey_eq_none_iff (k : K) (l : List (K × V)) :
    lookupKey k l = none ↔ k ∉ tableKeys l := by
  induction l with
  | nil => simp [lookupKey, tableKeys_nil]
  | cons r t ih =>
    rw [tableKeys_cons, List.mem_cons]
    by_cases h : r.1 = k
    · simp [lookupKey, h]
    · simp only [lookupKey, if_neg h, ih]
      constructor
      · rintro hn (he | hm)
        · exact h he.symm
        · exact hn hm
      · intro hn hm
        exact hn (Or.inr hm)

theorem lookupKey_of_mem_nodup {k : K} {v : V} {l : List (K × V)}
    (hnd : (tableKeys l).Nodup) (hm : (k, v) ∈ l) : lookupKey k l = some v := by
  induction l with
  | nil => cases hm
  | cons r t ih =>
    rw [tableKeys_cons, List.nodup_cons] at hnd
    rcases List.mem_cons.mp hm with h | h
    · subst h; simp [lookupKey]
    · have hk : r.1 ≠ k := by
        intro he
        exact hnd.1 (he ▸ List.mem_map.mpr ⟨(k, v), h, rfl⟩)
      simp [lookupKey, hk, ih hnd.2 h]

theorem mem_tableKeys_mergeInto (t b : List (K × V)) (k : K) :
    k ∈ tableKeys (mergeInto t b) ↔ k ∈ tableKeys t ∨ k ∈ tableKeys b := by
  unfold mergeInto
  rw [tableKeys, List.map_append, ← tableKeys, ← tableKeys, tableKeys_map_applyStaged,
    List.mem_append]
  constructor
  · rintro (h | h)
    · exact Or.inl h
    · rcases List.mem_map.mp h with ⟨r, hr, hrk⟩
      exact Or.inr (List.mem_map.mpr ⟨r, (List.mem_filter.mp hr).1, hrk⟩)
  · rintro (h | h)
    · exact Or.inl h
    · by_cases ht : k ∈ tableKeys t
      · exact Or.inl ht
      · rcases List.mem_map.mp h with ⟨r, hr, hrk⟩
        refine Or.inr (List.mem_map.mpr ⟨r, List.mem_filter.mpr ⟨hr, ?_⟩, hrk⟩)
        simp only [decide_eq_true_eq]
        rw [hrk]
        exact ht

theorem applyStaged_of_mem {b : List (K × V)} (hnd : (tableKeys b).Nodup)
    {r : K × V} (hr : r ∈ b) : applyStaged b r = r := by
  have h : lookupKey r.1 b = some r.2 := lookupKey_of_mem_nodup hnd hr
  simp [applyStaged, h]

theorem applyStaged_applyStaged (b : List (K × V)) (r : K × V) :
    applyStaged b (applyStaged b r) = applyStaged b r := by
  unfold applyStaged
  cases h : lookupKey r.1 b with
  | none => simp [h]
  | some v => simp [h]

theorem mergeInto_mergeInto {t b : List (K × V)} (hnd : (tableKeys b).Nodup) :
    mergeInto (mergeInto t b) b = mergeInto t b := by
  have hfil : b.filter (fun r => decide (r.1 ∉ tableKeys (mergeInto t b))) = [] := by
    rw [List.filter_eq_nil_iff]
    intro r hr
    simp only [decide_eq_true_eq, not_not]
    exact (mem_tableKeys_mergeInto t b r.1).mpr (Or.inr (List.mem_map.mpr ⟨r, hr, rfl⟩))
  have hmap : (b.filter (fun r => decide (r.1 ∉ tableKeys t))).map (applyStaged b)
      = b.filter (fun r => decide (r.1 ∉ tableKeys t)) := by
    have h2 := List.map_congr_left
      (fun r hr => applyStaged_of_mem hnd (List.mem_filter.mp hr).1 :
        ∀ r ∈ b.filter (fun r => decide (r.1 ∉ tableKeys t)), applyStaged b r = r)
    simpa using h2
  conv_lhs => rw [mergeInto]
  rw [hfil, List.append_nil]
  conv_lhs => rw [mergeInto]
  rw [List.map_append, List.map_map, hmap]
  conv_rhs => rw [mergeInto]
  congr 1
  exact List.map_congr_left fun r _ => applyStaged_applyStaged b r

theorem lookupKey_append (k : K) (l1 l2 : List (K × V)) :
    lookupKey k (l1 ++ l2) =
      (match lookupKey k l1 with
       | some v => some v
       | none => lookupKey k l2) := by
  induction l1 with
  | nil => simp [lookupKey]
  | cons r t ih =>
    by_cases h : r.1 = k <;> simp [lookupKey, h, ih]

theorem lookupKey_map_applyStaged_of_not_mem {k : K} {b : List (K × V)}
    (hk : k ∉ tableKeys b) (t : List (K × V)) :
    lookupKey k (t.map (applyStaged b)) = lookupKey k t := by
  induction t with
  | nil => rfl
  | cons r t ih =>
    by_cases h : r.1 = k
    · have hb : lookupKey r.1 b = none := by
        rw [lookupKey_eq_none_iff]
        rw [h]
        exact hk
      have : applyStaged b r = r := by simp [applyStaged, hb]
      simp [lookupKey, this, h]
    · have : (applyStaged b r).1 ≠ k := by rw [applyStaged_fst]; exact h
      simp only [List.map_cons, lookupKey, if_neg this, if_neg h]
      exact ih

theorem lookupKey_filter_of_not_mem {k : K} {b : List (K × V)}
    (hk : k ∉ tableKeys b) (p : K × V → Bool) :
    lookupKey k (b.filter p) = none := by
  rw [lookupKey_eq_none_iff]
  intro hm
  rcases List.mem_map.mp hm with ⟨r, hr, hrk⟩
  exact hk (List.mem_map.mpr ⟨r, (List.mem_filter.mp hr).1, hrk⟩)

theorem lookupKey_mergeInto_of_not_mem {k : K} {b : List (K × V)}
    (hk : k ∉ tableKeys b) (t : List (K × V)) :
    lookupKey k (mergeInto t b) = lookupKey k t := by
  rw [mergeInto, lookupKey_append, lookupKey_map_applyStaged_of_not_mem hk,
    lookupKey_filter_of_not_mem hk]
  cases lookupKey k t <;> rfl

/-- C2: running `upsert` twice with an identical batch produces the same
final table content as running it once (also through the failure case:
a batch that makes the merge fail makes the second run fail identically),
and every natural key present in the target but absent from the batch
keeps its row unchanged. -/
theorem upsert_idempotent_and_untouched {K V : Type} [DecidableEq K]
    (t b : List (K × V)) :
    ((upsert t b).bind (fun t2 => upsert t2 b) = upsert t b) ∧
    (∀ t2 : List (K × V), ∀ k : K, upsert t b = some t2 → k ∉ tableKeys b →
      lookupKey k t2 = lookupKey k t) := by
  constructor
  · by_cases hnd : (tableKeys b).Nodup
    · rw [upsert, if_pos hnd]
      show upsert (mergeInto t b) b = some (mergeInto t b)
      rw [upsert, if_pos hnd, mergeInto_mergeInto hnd]
    · rw [upsert, if_neg hnd]
      rfl
  · intro t2 k hup hk
    rw [upsert] at hup
    by_cases hnd : (tableKeys b).Nodup
    · rw [if_pos hnd, Option.some_inj] at hup
      rw [← hup]
      exact lookupKey_mergeInto_of_not_mem hk t
    · rw [if_neg hnd] at hup
      cases hup

/-- Witness for C2 at a concrete table and batch: key `1` is absent from
the batch `[(2, 99), (3, 30)]`, and its row survives the upsert
unchanged. -/
theorem upsert_idempotent_and_untouched_witness :
    lookupKey (1 : Int) [((1 : Int), (10 : Int)), (2, 99), (3, 30)] =
      lookupKey (1 : Int) [((1 : Int), (10 : Int)), (2, 20)] :=
  (upsert_idempotent_and_untouched [((1 : Int), (10 : Int)), (2, 20)]
      [(2, 99), (3, 30)]).2
    [(1, 10), (2, 99), (3, 30)] 1 (by decide) (by decide)

end UpsertStore

/-! ## Replace-recent-days refresh (claim C1)

`upsert_replace_recent_days` deletes with
`WHERE date >= current_date - interval '<days> days'`, a window of
`days + 1` calendar dates (`D-days .. D` inclusive): with `days = 5` the
dates `D-5 .. D` are deleted, six dates, not five.  A fresh batch covering
only `D-4 .. D` therefore leaves the target with no row at `D-5`. -/

/-- A target table pre-populated with one row per date `D-10 .. D`
(`D = 0`, keys are the dates themselves, payload `1`). -/
def c1Table : List (Int × Int) :=
  [(-10, 1), (-9, 1), (-8, 1), (-7, 1), (-6, 1),
   (-5, 1), (-4, 1), (-3, 1), (-2, 1), (-1, 1), (0, 1)]

/-- A fresh batch covering the dates `D-4 .. D` (`D = 0`, payload `2`). -/
def c1Batch : List (Int × Int) :=
  [(-4, 2), (-3, 2), (-2, 2), (-1, 2), (0, 2)]

/-- C1 counterexample: on a table with rows at `D-10 .. D` and a fresh
batch at `D-4 .. D`, `replaceRecentDays` with `days = 5` deletes the row
at date `D-5` and the batch does not restore it, so the row at `D-5` is
*not* untouched as the claim requires: it is gone (`lookupKey` finds
nothing), although it was present before the call. -/
theorem replaceRecentDays_c1_counterexample :
    replaceRecentDays 0 5 (fun k => k) c1Table c1Batch =
      some [(-10, 1), (-9, 1), (-8, 1), (-7, 1), (-6, 1),
            (-4, 2), (-3, 2), (-2, 2), (-1, 2), (0, 2)] ∧
    lookupKey (-5 : Int) c1Table = some 1 ∧
    lookupKey (-5 : Int)
      [((-10 : Int), (1 : Int)), (-9, 1), (-8, 1), (-7, 1), (-6, 1),
       (-4, 2), (-3, 2), (-2, 2), (-1, 2), (0, 2)] = none := by
  refine ⟨?_, by decide, by decide⟩
  decide

/-- C1 amended: with `days = 5` the trailing delete window is the six
dates `D-5 .. D`; rows at `D-10 .. D-6` are untouched, the row at `D-5`
is deleted without replacement, rows at `D-4 .. D` exactly match the
fresh batch, and the result has no duplicate natural keys.  Stated for
arbitrary pre-existing payloads `v` and fresh payloads `w` at `D = 0`. -/
theorem replaceRecentDays_amended (v w : Int → Int) :
    replaceRecentDays 0 5 (fun k => k)
      [(-10, v (-10)), (-9, v (-9)), (-8, v (-8)), (-7, v (-7)), (-6, v (-6)),
       (-5, v (-5)), (-4, v (-4)), (-3, v (-3)), (-2, v (-2)), (-1, v (-1)),
       (0, v 0)]
      [(-4, w (-4)), (-3, w (-3)), (-2, w (-2)), (-1, w (-1)), (0, w 0)] =
    some [(-10, v (-10)), (-9, v (-9)), (-8, v (-8)), (-7, v (-7)), (-6, v (-6)),
          (-4, w (-4)), (-3, w (-3)), (-2, w (-2)), (-1, w (-1)), (0, w 0)] ∧
    (tableKeys [(-10, v (-10)), (-9, v (-9)), (-8, v (-8)), (-7, v (-7)),
                (-6, v (-6)), (-4, w (-4)), (-3, w (-3)), (-2, w (-2)),
                (-1, w (-1)), (0, w 0)]).Nodup := by
  constructor
  · rfl
  · show List.Nodup [-10, -9, -8, -7, -6, -4, -3, -2, -1, 0]
    decide

/-! ## Window planner — `daterange_chunks` (`scripts/backfill.py` lines 63–72)

    d = s
    while d <= e:
        chunk_end = min(d + timedelta(days=chunk_days - 1), e)
        yield d.isoformat(), chunk_end.isoformat()
        d = chunk_end + timedelta(days=1)

Dates are embedded as absolute day numbers (`Int`); `timedelta` addition
is integer addition.  The Python loop does not terminate when
`chunk_days < 1` (then `d` never advances), so the embedding's guard also
requires `1 ≤ cd`, which restricts it to the terminating domain; every
claim about the planner assumes `chunkDays ≥ 1`. -/

def daterange_chunks (s e : Int) (cd : Nat) : List (Int × Int) :=
  if h : s ≤ e ∧ 1 ≤ cd then
    (s, min (s + (cd : Int) - 1) e) ::
      daterange_chunks (min (s + (cd : Int) - 1) e + 1) e cd
  else []
termination_by (e + 1 - s).toNat
decreasing_by
  simp_wf
  omega

/-- `coversFrom s e l`: the windows in `l` are consecutive, the first
starting exactly at `s`, each next starting the day after the previous
one ended, the last ending exactly at `e` — i.e. `l` partitions `[s, e]`
in order with no gaps and no overlaps (and `l = []` exactly when the
range is empty). -/
def coversFrom (s e : Int) : List (Int × Int) → Prop
  | [] => e < s
  | c :: rest => c.1 = s ∧ c.1 ≤ c.2 ∧ c.2 ≤ e ∧ coversFrom (c.2 + 1) e rest

theorem daterange_chunks_spec (cd : Nat) (hcd : 1 ≤ cd) :
    ∀ (n : Nat) (s e : Int), (e + 1 - s).toNat ≤ n →
      coversFrom s e (daterange_chunks s e cd) ∧
      ∀ c ∈ daterange_chunks s e cd, c.2 - c.1 + 1 ≤ (cd : Int) := by
  intro n
  induction n with
  | zero =>
    intro s e hn
    rw [daterange_chunks, dif_neg (by omega : ¬(s ≤ e ∧ 1 ≤ cd))]
    exact ⟨by show e < s; omega, by intro c hc; cases hc⟩
  | succ n ih =>
    intro s e hn
    by_cases hse : s ≤ e
    · rw [daterange_chunks, dif_pos ⟨hse, hcd⟩]
      have hrec := ih (min (s + (cd : Int) - 1) e + 1) e (by omega)
      refine ⟨⟨rfl, by omega, by omega, hrec.1⟩, ?_⟩
      intro c hc
      rcases List.mem_cons.mp hc with h | h
      · subst h
        simp only
        omega
      · exact hrec.2 c h
    · rw [daterange_chunks, dif_neg (by tauto)]
      exact ⟨by show e < s; omega, by intro c hc; cases hc⟩

theorem coversFrom_mem_le :
    ∀ (l : List (Int × Int)) (s e : Int), coversFrom s e l →
      ∀ c ∈ l, c.1 ≤ c.2 := by
  intro l
  induction l with
  | nil => intro s e _ c hc; cases hc
  | cons d rest ih =>
    intro s e h c hc
    rw [coversFrom] at h
    rcases List.mem_cons.mp hc with rfl | hc'
    · exact h.2.1
    · exact ih (d.2 + 1) e h.2.2.2 c hc'

theorem coversFrom_mem_iff :
    ∀ (l : List (Int × Int)) (s e : Int), coversFrom s e l →
      ∀ x : Int, (∃ c ∈ l, c.1 ≤ x ∧ x ≤ c.2) ↔ s ≤ x ∧ x ≤ e := by
  intro l
  induction l with
  | nil =>
    intro s e h x
    rw [coversFrom] at h
    simp only [List.not_mem_nil, false_and, exists_false, false_iff]
    omega
  | cons c rest ih =>
    intro s e h x
    rw [coversFrom] at h
    obtain ⟨h1, h2, h3, h4⟩ := h
    have hih := ih (c.2 + 1) e h4 x
    constructor
    · rintro ⟨d, hd, hdx⟩
      rcases List.mem_cons.mp hd with rfl | hd'
      · constructor <;> omega
      · have := hih.mp ⟨d, hd', hdx⟩
        constructor <;> omega
    · intro hx
      by_cases hb : x ≤ c.2
      · exact ⟨c, List.mem_cons_self c rest, by omega, hb⟩
      · obtain ⟨d, hd, hdx⟩ := hih.mpr (by constructor <;> omega)
        exact ⟨d, List.mem_cons_of_mem c hd, hdx⟩

/-- C4: for `chunkDays ≥ 1`, the window planner emits, for `start > end`,
the empty sequence (not an error), and otherwise a finite sequence of
contiguous sub-windows — first starting at `start`, each next starting
the day after the previous ended, last ending at `end` (`coversFrom`) —
each spanning at least one and at most `chunkDays` days, whose union of
date ranges is exactly `[start, end]`. -/
theorem daterange_chunks_c4 (s e : Int) (cd : Nat) (hcd : 1 ≤ cd) :
    (e < s → daterange_chunks s e cd = []) ∧
    coversFrom s e (daterange_chunks s e cd) ∧
    (∀ c ∈ daterange_chunks s e cd, c.1 ≤ c.2 ∧ c.2 - c.1 + 1 ≤ (cd : Int)) ∧
    (∀ x : Int,
      (∃ c ∈ daterange_chunks s e cd, c.1 ≤ x ∧ x ≤ c.2) ↔ s ≤ x ∧ x ≤ e) := by
  have hspec := daterange_chunks_spec cd hcd (e + 1 - s).toNat s e le_rfl
  refine ⟨?_, hspec.1, ?_, coversFrom_mem_iff _ s e hspec.1⟩
  · intro hes
    rw [daterange_chunks, dif_neg (by omega)]
  · intro c hc
    exact ⟨coversFrom_mem_le _ s e hspec.1 c hc, hspec.2 c hc⟩

/-- Witness for C4 at concrete inputs: `start = 10 > 2 = end` with
`chunkDays = 4` yields the empty sequence. -/
theorem daterange_chunks_c4_witness : daterange_chunks 10 2 4 = [] :=
  (daterange_chunks_c4 10 2 4 (by decide)).1 (by decide)

/-! ## HTTP fetch with retry — `_http_get`

Two variants exist: `src/extract/mta_daily.py` lines 37–60 and
`src/extract/events_daily.py` lines 53–77.  Both run
`for attempt in range(1, max_retries + 1)`: return the body on status
200, sleep `1.5 * attempt` seconds and retry on a transient status
(429, 500, 502, 503, 504), and otherwise the daily variant raises
`HTTPError` directly while the events variant calls
`r.raise_for_status()` — which raises only for `400 ≤ status < 600`, so
for any other status the events loop simply falls through to the next
attempt without sleeping.  After the loop both make one final request
and call `raise_for_status()` on it, returning its body if that does not
raise.

The environment is a pure response function `resp : ℕ → status` giving
the status of the i-th request (0-based); network bodies, reasons and
timeouts carry no logic.  The loop is embedded structurally on the
number of loop iterations left (`k`), with `attempt = 1` at
`k = maxRetries`. -/

/-- Transient statuses retried by both `_http_get` variants. -/
def transientStatus (st : Nat) : Bool :=
  st == 429 || st == 500 || st == 502 || st == 503 || st == 504

/-- `requests.Response.raise_for_status()` raises exactly for
`400 ≤ status < 600`. -/
def raisesForStatus (st : Nat) : Bool := decide (400 ≤ st ∧ st < 600)

/-- Result of one `_http_get` call. -/
inductive HttpOutcome where
  /-- The JSON body of request number `reqIdx` (0-based) was returned. -/
  | json (reqIdx : Nat)
  /-- An exception carrying this HTTP status propagated to the caller. -/
  | raised (status : Nat)
deriving DecidableEq

/-- Trace of one `_http_get` call: its outcome, how many HTTP requests
were issued, and the `time.sleep` delays in seconds, in order. -/
structure HttpTrace where
  outcome : HttpOutcome
  requests : Nat
  sleeps : List ℚ
deriving DecidableEq

/-- Retry loop of `mta_daily._http_get` (lines 46–60).  `k` counts the
loop iterations left; `attempt` is the 1-based attempt number; `sleeps`
accumulates backoff delays in reverse. -/
def httpDailyLoop (resp : Nat → Nat) : Nat → Nat → List ℚ → HttpTrace
  | 0, attempt, sleeps =>
    -- loop exhausted: final unretried attempt (lines 57–60)
    if raisesForStatus (resp (attempt - 1)) then
      ⟨.raised (resp (attempt - 1)), attempt, sleeps.reverse⟩
    else
      ⟨.json (attempt - 1), attempt, sleeps.reverse⟩
  | k + 1, attempt, sleeps =>
    if resp (attempt - 1) = 200 then
      ⟨.json (attempt - 1), attempt, sleeps.reverse⟩
    else if transientStatus (resp (attempt - 1)) then
      httpDailyLoop resp k (attempt + 1) ((3 / 2 * (attempt : ℚ)) :: sleeps)
    else
      -- raise requests.HTTPError(...) (line 55)
      ⟨.raised (resp (attempt - 1)), attempt, sleeps.reverse⟩

/-- `mta_daily._http_get(url, params, headers, max_retries)`. -/
def httpGetDaily (resp : Nat → Nat) (maxRetries : Nat) : HttpTrace :=
  httpDailyLoop resp maxRetries 1 []

/-- Retry loop of `events_daily._http_get` (lines 63–77): identical to
the daily variant except that the non-transient branch is
`r.raise_for_status()`, which for a status outside `[400, 600)` does not
raise, so the loop silently proceeds to the next attempt with no
sleep. -/
def httpEventsLoop (resp : Nat → Nat) : Nat → Nat → List ℚ → HttpTrace
  | 0, attempt, sleeps =>
    if raisesForStatus (resp (attempt - 1)) then
      ⟨.raised (resp (attempt - 1)), attempt, sleeps.reverse⟩
    else
      ⟨.json (attempt - 1), attempt, sleeps.reverse⟩
  | k + 1, attempt, sleeps =>
    if resp (attempt - 1) = 200 then
      ⟨.json (attempt - 1), attempt, sleeps.reverse⟩
    else if transientStatus (resp (attempt - 1)) then
      httpEventsLoop resp k (attempt + 1) ((3 / 2 * (attempt : ℚ)) :: sleeps)
    else if raisesForStatus (resp (attempt - 1)) then
      ⟨.raised (resp (attempt - 1)), attempt, sleeps.reverse⟩
    else
      httpEventsLoop resp k (attempt + 1) sleeps

/-- `events_daily._http_get(url, params, headers, max_retries)`. -/
def httpGetEvents (resp : Nat → Nat) (maxRetries : Nat) : HttpTrace :=
  httpEventsLoop resp maxRetries 1 []

/-- C3 counterexample: a response status of 304 is not 2xx and not in
the transient set {429, 500, 502, 503, 504}, so the claim requires
`_http_get` to raise immediately after one request; but
`events_daily._http_get` (via `raise_for_status()`, which only raises
for 4xx/5xx) instead silently retries and, after 4 requests, returns
the body of the final attempt. -/
theorem httpGetEvents_c3_counterexample :
    httpGetEvents (fun _ => 304) 3 = ⟨HttpOutcome.json 3, 4, []⟩ := by
  decide

/-- C3 amended: with `max_retries = 3`, a fetch that always returns 503
makes exactly 3 retried attempts with backoff delays `1.5 * attempt`
seconds (1.5, 3, 4.5) plus one final unretried attempt, then raises —
in both `_http_get` variants.  A first status that is neither 200 nor
transient makes `mta_daily._http_get` raise immediately after exactly
one request; `events_daily._http_get` does so exactly when that status
is additionally in `[400, 600)` (`raise_for_status`). -/
theorem httpGet_c3_amended :
    (httpGetDaily (fun _ => 503) 3 =
      ⟨HttpOutcome.raised 503, 4, [3 / 2, 3, 9 / 2]⟩) ∧
    (httpGetEvents (fun _ => 503) 3 =
      ⟨HttpOutcome.raised 503, 4, [3 / 2, 3, 9 / 2]⟩) ∧
    (∀ resp : Nat → Nat, resp 0 ≠ 200 → transientStatus (resp 0) = false →
      httpGetDaily resp 3 = ⟨HttpOutcome.raised (resp 0), 1, []⟩) ∧
    (∀ resp : Nat → Nat, resp 0 ≠ 200 → transientStatus (resp 0) = false →
      raisesForStatus (resp 0) = true →
      httpGetEvents resp 3 = ⟨HttpOutcome.raised (resp 0), 1, []⟩) := by
  refine ⟨?_, ?_, ?_, ?_⟩
  · show httpDailyLoop (fun _ => 503) 3 1 [] = _
    norm_num [httpDailyLoop, transientStatus, raisesForStatus]
  · show httpEventsLoop (fun _ => 503) 3 1 [] = _
    norm_num [httpEventsLoop, transientStatus, raisesForStatus]
  · intro resp h200 htr
    show httpDailyLoop resp 3 1 [] = _
    rw [httpDailyLoop, if_neg (by simpa using h200), if_neg (by simp [htr])]
    rfl
  · intro resp h200 htr hra
    show httpEventsLoop resp 3 1 [] = _
    rw [httpEventsLoop, if_neg (by simpa using h200), if_neg (by simp [htr]),
      if_pos (by simpa using hra)]
    rfl

/-- Witness for C3 at a concrete response: a constant 404 makes both
variants raise after exactly one request with no sleeps. -/
theorem httpGet_c3_amended_witness :
    httpGetDaily (fun _ => 404) 3 = ⟨HttpOutcome.raised 404, 1, []⟩ ∧
    httpGetEvents (fun _ => 404) 3 = ⟨HttpOutcome.raised 404, 1, []⟩ :=
  ⟨httpGet_c3_amended.2.2.1 (fun _ => 404) (by decide) (by decide),
   httpGet_c3_amended.2.2.2 (fun _ => 404) (by decide) (by decide) (by decide)⟩

/-! ## String helpers

Python string primitives used by the extractors, embedded over the
character list of a `String` (Python strings compare and match by code
point, exactly as these do). -/

/-- Python `str.lower()`. -/
def strLower (s : String) : String := ⟨s.data.map Char.toLower⟩

/-- Python `str.upper()`. -/
def strUpper (s : String) : String := ⟨s.data.map Char.toUpper⟩

/-- Python `str.strip()`: drop leading and trailing whitespace. -/
def strTrim (s : String) : String :=
  ⟨((s.data.dropWhile Char.isWhitespace).reverse.dropWhile Char.isWhitespace).reverse⟩

/-- Python `needle in hay` substring containment. -/
def strContains (hay needle : String) : Bool :=
  hay.data.tails.any (fun t => needle.data.isPrefixOf t)

/-- Python `a < b` on strings: lexicographic by code point. -/
def listCharLt : List Char → List Char → Bool
  | [], [] => false
  | [], _ :: _ => true
  | _ :: _, [] => false
  | a :: as, b :: bs =>
    if a.toNat < b.toNat then true
    else if b.toNat < a.toNat then false
    else listCharLt as bs

/-- Python `a < b` on strings. -/
def strLtB (a b : String) : Bool := listCharLt a.data b.data

/-- Python `max(a, b)` on strings: the second argument wins only when
strictly greater. -/
def pymax (a b : String) : String := if strLtB a b then b else a

/-- Python `min(a, b)` on strings: the second argument wins only when
strictly smaller. -/
def pymin (a b : String) : String := if strLtB b a then b else a

/-! ## Schema resolver — `_pick`

Three `_pick` helpers exist.  `mta_daily._pick` (lines 63–73) and
`mta_hourly._pick` (lines 40–50) are textually identical:

    for c in candidates:
        if c in columns:
            return c
    return None

`events_daily._pick` (lines 80–100) first runs the same exact-match loop
and then falls back to substring matching, lowercasing only the live
column (candidates are matched verbatim):

    for c in cols:
        lc = c.lower()
        for k in cands:
            if k in lc:
                return c
    return None
-/

/-- `mta_daily._pick` and `mta_hourly._pick`: first candidate that is an
exact member of the live columns, else `none` — no fallback. -/
def pickExact : List String → List String → Option String
  | [], _ => none
  | c :: cs, cols => if c ∈ cols then some c else pickExact cs cols

/-- Fallback loop of `events_daily._pick` (lines 95–99): first live
column whose lowercased name contains some candidate verbatim. -/
def pickFuzzy (cands : List String) : List String → Option String
  | [] => none
  | c :: cs =>
    if cands.any (fun k => strContains (strLower c) k) then some c
    else pickFuzzy cands cs

/-- `events_daily._pick` (lines 80–100): exact match first, then the
fuzzy substring fallback. -/
def pickEvents (cands cols : List String) : Option String :=
  match pickExact cands cols with
  | some c => some c
  | none => pickFuzzy cands cols

/-- Modelled from the spec's words for claim C6: the resolver returns the
first candidate that is an exact member of the live columns; if none, it
falls back to *case-insensitive* substring containment (both sides
lowercased) and returns the first live column containing a candidate;
else no resolution. -/
def pickSpecClaim (cands cols : List String) : Option String :=
  match cands.find? (fun c => decide (c ∈ cols)) with
  | some c => some c
  | none =>
    cols.find? (fun c => cands.any (fun k => strContains (strLower c) (strLower k)))

/-- The behaviour `events_daily._pick` actually implements, written with
`List.find?`: exact match first; else the first live column whose
lowercased name contains a candidate taken verbatim (the candidate is
not lowercased). -/
def pickSpecAmended (cands cols : List String) : Option String :=
  match cands.find? (fun c => decide (c ∈ cols)) with
  | some c => some c
  | none => cols.find? (fun c => cands.any (fun k => strContains (strLower c) k))

/-- C6 counterexample: with candidates `["date"]` and live columns
`["event_date"]` there is no exact match but a substring match, so the
claim requires every `_pick` to resolve `"event_date"` (as the
spec-modelled resolver does); yet `mta_daily._pick`/`mta_hourly._pick`
return no resolution. -/
theorem pick_c6_counterexample :
    pickExact ["date"] ["event_date"] = none ∧
    pickSpecClaim ["date"] ["event_date"] = some "event_date" := by
  decide

theorem pickExact_eq_find (cands cols : List String) :
    pickExact cands cols = cands.find? (fun c => decide (c ∈ cols)) := by
  induction cands with
  | nil => rfl
  | cons c cs ih =>
    by_cases h : c ∈ cols
    · rw [pickExact, if_pos h]
      exact (List.find?_cons_of_pos cs (by simpa using h)).symm
    · rw [pickExact, if_neg h, ih]
      exact (List.find?_cons_of_neg cs (by simpa using h)).symm

theorem pickFuzzy_eq_find (cands cols : List String) :
    pickFuzzy cands cols =
      cols.find? (fun c => cands.any (fun k => strContains (strLower c) k)) := by
  induction cols with
  | nil => rfl
  | cons c cs ih =>
    by_cases h : cands.any (fun k => strContains (strLower c) k) = true
    · rw [pickFuzzy, if_pos h]
      exact (List.find?_cons_of_pos cs h).symm
    · rw [pickFuzzy, if_neg h, ih]
      exact (List.find?_cons_of_neg cs (by simpa using h)).symm

/-- C6 amended: `events_daily._pick` returns the first exact candidate
member of the live columns, else the first live column whose *lowercased*
name contains some candidate verbatim, else no resolution; while
`mta_daily._pick` and `mta_hourly._pick` return the first exact candidate
member only, with no fallback of any kind. -/
theorem pick_c6_amended :
    (∀ cands cols : List String, pickEvents cands cols = pickSpecAmended cands cols) ∧
    (∀ cands cols : List String,
      pickExact cands cols = cands.find? (fun c => decide (c ∈ cols))) := by
  constructor
  · intro cands cols
    unfold pickEvents pickSpecAmended
    rw [pickExact_eq_find]
    cases List.find? (fun c => decide (c ∈ cols)) cands with
    | none => exact pickFuzzy_eq_find cands cols
    | some c => rfl
  · exact pickExact_eq_find

/-! ## Epoch intersection — `fetch_mta_hourly_by_borough`
(`src/extract/mta_hourly.py` lines 16–19 and 252–281)

    DATASETS = [
        ("https://data.ny.gov/resource/wujg-7c2s", "2020-01-01", "2024-12-31"),
        ("https://data.ny.gov/resource/5wq4-mkjj", "2025-01-01", "2100-01-01"),
    ]
    for url_base, ds_start, ds_end in DATASETS:
        s = max(start_date, ds_start)
        e = min(end_date, ds_end)
        if s > e:
            continue
        df = _fetch_raw(url_base, s, e, headers)

Dates stay ISO-8601 strings and are compared as Python compares them —
lexicographically by code point (which agrees with chronological order on
equal-width ISO dates). -/

/-- The two hourly coverage epochs: (dataset URL, first valid date, last
valid date). -/
def DATASETS : List (String × String × String) :=
  [("https://data.ny.gov/resource/wujg-7c2s", "2020-01-01", "2024-12-31"),
   ("https://data.ny.gov/resource/5wq4-mkjj", "2025-01-01", "2100-01-01")]

/-- The per-epoch sub-requests `(url_base, s, e)` that
`fetch_mta_hourly_by_borough(start_date, end_date)` issues to
`_fetch_raw`, in order: the requested window clipped to each epoch,
skipping epochs where the clipped window is empty (`s > e`). -/
def planEpochSubrequests (s e : String) : List (String × String × String) :=
  DATASETS.filterMap (fun d =>
    if strLtB (pymin e d.2.2) (pymax s d.2.1) then none
    else some (d.1, pymax s d.2.1, pymin e d.2.2))

/-- C5: a request for `[2024-12-20, 2025-01-10]` issues exactly two
per-epoch sub-requests, clipped to `[2024-12-20, 2024-12-31]` and
`[2025-01-01, 2025-01-10]`; in general a sub-request is present exactly
for each epoch whose validity range meets the requested range, carrying
the intersection (`max` of starts, `min` of ends), and an epoch with
empty intersection is skipped. -/
theorem planEpochSubrequests_c5 :
    (planEpochSubrequests "2024-12-20" "2025-01-10" =
      [("https://data.ny.gov/resource/wujg-7c2s", "2024-12-20", "2024-12-31"),
       ("https://data.ny.gov/resource/5wq4-mkjj", "2025-01-01", "2025-01-10")]) ∧
    (∀ (s e : String) (r : String × String × String),
      r ∈ planEpochSubrequests s e ↔
        ∃ d ∈ DATASETS, strLtB (pymin e d.2.2) (pymax s d.2.1) = false ∧
          r = (d.1, pymax s d.2.1, pymin e d.2.2)) := by
  constructor
  · decide
  · intro s e r
    rw [planEpochSubrequests, List.mem_filterMap]
    constructor
    · rintro ⟨d, hd, hf⟩
      by_cases hc : strLtB (pymin e d.2.2) (pymax s d.2.1) = true
      · rw [if_pos hc] at hf
        cases hf
      · rw [if_neg hc] at hf
        exact ⟨d, hd, by simpa using hc, (Option.some_inj.mp hf).symm⟩
    · rintro ⟨d, hd, hc, rfl⟩
      exact ⟨d, hd, by rw [if_neg (by simp [hc])]⟩

/-! ## Exact numeric cells

pandas numeric cells are embedded as exact fractions `Frac` (numerator,
positive denominator), with `Option` for missing (NaN).  Arithmetic and
comparisons are implemented on numerator/denominator directly — without
normalisation — so every pipeline computation is kernel-computable;
`Frac.toRat` interprets a cell as the rational it denotes, and the
bound statements are phrased through it.  The decimal values these APIs
serve are represented exactly. -/

structure Frac where
  num : Int
  den : Nat
  dpos : 0 < den

instance : DecidableEq Frac := fun a b =>
  decidable_of_iff (a.num = b.num ∧ a.den = b.den) (by
    cases a
    cases b
    simp)

def Frac.ofInt (n : Int) : Frac := ⟨n, 1, Nat.one_pos⟩

def Frac.zero : Frac := ⟨0, 1, Nat.one_pos⟩

def Frac.add (a b : Frac) : Frac :=
  ⟨a.num * b.den + b.num * a.den, a.den * b.den, Nat.mul_pos a.dpos b.dpos⟩

/-- `a < b` as rationals, by cross-multiplication. -/
def Frac.ltB (a b : Frac) : Bool :=
  decide (a.num * (b.den : Int) < b.num * (a.den : Int))

/-- The rational a `Frac` denotes (spec-level interpretation only). -/
def Frac.toRat (a : Frac) : ℚ := (a.num : ℚ) / (a.den : ℚ)

/-- `Series.clip(lower=lo)` on one value: values below `lo` become `lo`. -/
def Frac.clipLo (lo a : Frac) : Frac := if a.ltB lo then lo else a

/-- `Series.clip(upper=hi)` on one value: values above `hi` become `hi`. -/
def Frac.clipHi (hi a : Frac) : Frac := if hi.ltB a then hi else a

/-- `Series.clip(lower=lo, upper=hi)` on an optional cell (NaN stays NaN). -/
def fclip (lo hi : Frac) (v : Option Frac) : Option Frac :=
  v.map (fun a => Frac.clipHi hi (Frac.clipLo lo a))

/-- `Series.clip(lower=lo)` on an optional cell (NaN stays NaN). -/
def fclipLower (lo : Frac) (v : Option Frac) : Option Frac :=
  v.map (Frac.clipLo lo)

/-- `Series.round()` (numpy round-half-to-even) on an exact fraction,
computed from numerator and denominator: `f = ⌊a⌋`, remainder `r`
compared against half the denominator, ties to the even integer. -/
def Frac.roundHalfEven (a : Frac) : Int :=
  let d : Int := (a.den : Int)
  let f : Int := Int.fdiv a.num d
  let r : Int := a.num - f * d
  if 2 * r < d then f
  else if d < 2 * r then f + 1
  else if f % 2 = 0 then f else f + 1

/-- `astype("Int64")` from a float value: truncation toward zero. -/
def Frac.trunc (a : Frac) : Int := Int.tdiv a.num (a.den : Int)

theorem Frac.ltB_iff (a b : Frac) : a.ltB b = true ↔ a.toRat < b.toRat := by
  unfold Frac.ltB Frac.toRat
  rw [decide_eq_true_eq,
    div_lt_div_iff₀ (by exact_mod_cast a.dpos) (by exact_mod_cast b.dpos)]
  exact_mod_cast Iff.rfl

theorem Frac.toRat_clipLo_le {lo : Frac} (a : Frac) :
    lo.toRat ≤ (Frac.clipLo lo a).toRat := by
  unfold Frac.clipLo
  by_cases h : a.ltB lo = true
  · rw [if_pos h]
  · rw [if_neg h]
    have := (not_iff_not.mpr (Frac.ltB_iff a lo)).mp h
    exact le_of_not_lt this

theorem Frac.toRat_clipHi_le {hi : Frac} (a : Frac) :
    (Frac.clipHi hi a).toRat ≤ hi.toRat := by
  unfold Frac.clipHi
  by_cases h : hi.ltB a = true
  · rw [if_pos h]
  · rw [if_neg h]
    have := (not_iff_not.mpr (Frac.ltB_iff hi a)).mp h
    exact le_of_not_lt this

theorem Frac.toRat_clipHi_ge {hi : Frac} (a : Frac) {c : ℚ}
    (hc : c ≤ hi.toRat) (ha : c ≤ a.toRat) : c ≤ (Frac.clipHi hi a).toRat := by
  unfold Frac.clipHi
  by_cases h : hi.ltB a = true
  · rw [if_pos h]
    exact hc
  · rw [if_neg h]
    exact ha

/-! ## Record normalizer — `src/transform/clean.py`

Each table function is embedded row-wise: the pandas column pipeline of
`to_*_table` is a per-row cleaning function (`Option` result: `none`
when the row is dropped by `dropna` on required fields), followed by
`drop_duplicates(subset=key, keep="first")`.  `astype(str)` turns a
missing cell into the literal string `"nan"`, which the borough/mode
vocabularies then reject or default, exactly as in pandas. -/

/-- `drop_duplicates(keep="first")` by a key function: keep a row only
if its key was not seen earlier. -/
def dedupByKeyGo {α κ : Type} [DecidableEq κ] (key : α → κ) :
    List κ → List α → List α
  | _, [] => []
  | seen, a :: l =>
    if key a ∈ seen then dedupByKeyGo key seen l
    else a :: dedupByKeyGo key (key a :: seen) l

def dedupByKey {α κ : Type} [DecidableEq κ] (key : α → κ) (l : List α) : List α :=
  dedupByKeyGo key [] l

/-- `VALID_BOROUGHS` (`clean.py` line 7). -/
def VALID_BOROUGHS : List String :=
  ["Bronx", "Brooklyn", "Manhattan", "Queens", "Staten Island"]

/-- `BORO_MAP` (`clean.py` lines 10–17). -/
def BORO_MAP : List (String × String) :=
  [("MN", "Manhattan"), ("MANHATTAN", "Manhattan"),
   ("BX", "Bronx"), ("BRONX", "Bronx"),
   ("BK", "Brooklyn"), ("BKLN", "Brooklyn"), ("BROOKLYN", "Brooklyn"),
   ("QN", "Queens"), ("QUEENS", "Queens"),
   ("SI", "Staten Island"), ("S.I.", "Staten Island"),
   ("STATEN ISLAND", "Staten Island"), ("STATENISLAND", "Staten Island")]

/-- Python `str.title()`: the first letter of each alphabetic run is
uppercased, the rest lowercased. -/
def titlecaseGo : Bool → List Char → List Char
  | _, [] => []
  | prevAlpha, c :: cs =>
    (if prevAlpha then c.toLower else c.toUpper) :: titlecaseGo c.isAlpha cs

def titlecase (s : String) : String := ⟨titlecaseGo false s.data⟩

/-- Borough normalisation used by `to_hourly_table` (lines 138–148) and
`to_events_table` (lines 196–202): `astype(str)` (missing → `"nan"`),
strip, map through `BORO_MAP` by the uppercased value with `str.title()`
as fallback, then keep only members of `VALID_BOROUGHS`. -/
def boroughClean (b : Option String) : Option String :=
  let s := strTrim (b.getD "nan")
  let m := match BORO_MAP.lookup (strUpper s) with
           | some v => v
           | none => titlecase s
  if m ∈ VALID_BOROUGHS then some m else none

/-- Count-like cells (`riders`, lines 53–60 and 150–157):
`to_numeric(errors="coerce").fillna(0).round().astype("Int64").clip(lower=0)`. -/
def countClean (v : Option Frac) : Int :=
  max 0 (Frac.roundHalfEven (v.getD Frac.zero))

/-- `event_count` (lines 204–210):
`to_numeric(errors="coerce").fillna(0).astype("Int64").clip(lower=0)` —
note: no `round()` here, `astype` truncates. -/
def eventCountClean (v : Option Frac) : Int :=
  max 0 (Frac.trunc (v.getD Frac.zero))

/-- `mode` normalisation in `to_ridership_table` (lines 49–51):
`astype(str).str.lower()`, then any value outside {subway, bus}
(including the `"nan"` arising from a missing cell) defaults to
`"subway"`. -/
def modeClean (m : Option String) : String :=
  let s := strLower (m.getD "nan")
  if s = "subway" ∨ s = "bus" then s else "subway"

/-- A raw row reaching `to_ridership_table`: `date` already parsed
(`none` = unparseable/missing, as `pd.to_datetime(errors="coerce")`
leaves `NaT`), `riders` already through `to_numeric` coercion. -/
structure RidershipRaw where
  date : Option Nat
  mode : Option String
  riders : Option Frac
  source : Option String

structure RidershipRow where
  date : Nat
  mode : String
  riders : Int
  source : String
deriving DecidableEq

/-- Row-wise `to_ridership_table` cleaning (`clean.py` lines 28–73):
`dropna(subset=["date"])` drops the row when the date is missing. -/
def ridershipClean (r : RidershipRaw) : Option RidershipRow :=
  match r.date with
  | none => none
  | some d => some ⟨d, modeClean r.mode, countClean r.riders, r.source.getD "nan"⟩

/-- `to_ridership_table` (lines 28–73): clean rows, then
`drop_duplicates(subset=["date", "mode"], keep="first")`. -/
def to_ridership_table (df : List RidershipRaw) : List RidershipRow :=
  dedupByKey (fun r => (r.date, r.mode)) (df.filterMap ridershipClean)

structure WeatherRaw where
  date : Option Nat
  station_id : Option String
  tmax_f : Option Frac
  tmin_f : Option Frac
  prcp_in : Option Frac
  snow_in : Option Frac

structure WeatherRow where
  date : Nat
  station_id : String
  tmax_f : Option Frac
  tmin_f : Option Frac
  prcp_in : Option Frac
  snow_in : Option Frac
deriving DecidableEq

/-- Row-wise `to_weather_table` cleaning (`clean.py` lines 76–111):
clip `tmax_f` to `[-30, 120]`, `tmin_f` to `[-50, 100]`, `prcp_in` and
`snow_in` to `≥ 0` (NaN cells stay NaN), drop the row when the date is
missing. -/
def weatherClean (r : WeatherRaw) : Option WeatherRow :=
  match r.date with
  | none => none
  | some d => some ⟨d, r.station_id.getD "nan",
      fclip (Frac.ofInt (-30)) (Frac.ofInt 120) r.tmax_f,
      fclip (Frac.ofInt (-50)) (Frac.ofInt 100) r.tmin_f,
      fclipLower Frac.zero r.prcp_in,
      fclipLower Frac.zero r.snow_in⟩

/-- `to_weather_table` (lines 76–111): clean rows, then
`drop_duplicates(subset=["date"], keep="first")` — one row per date,
first occurrence wins. -/
def to_weather_table (df : List WeatherRaw) : List WeatherRow :=
  dedupByKey (fun r => r.date) (df.filterMap weatherClean)

structure HourlyRaw where
  date : Option Nat
  hour : Option Int
  borough : Option String
  riders : Option Frac
  source : Option String

structure HourlyRow where
  date : Nat
  hour : Int
  borough : String
  riders : Int
  source : String
deriving DecidableEq

/-- Row-wise `to_hourly_table` cleaning (`clean.py` lines 114–174): keep
only hours in `[0, 23]`, normalise the borough, count-clean riders, drop
the row when date, hour or borough is missing after cleaning. -/
def hourlyClean (r : HourlyRaw) : Option HourlyRow :=
  match r.date, r.hour.bind (fun h => if 0 ≤ h ∧ h ≤ 23 then some h else none),
      boroughClean r.borough with
  | some d, some h, some b =>
    some ⟨d, h, b, countClean r.riders, r.source.getD "nan"⟩
  | _, _, _ => none

/-- `to_hourly_table` (lines 114–174): clean rows, then
`drop_duplicates(subset=["date", "hour", "borough"], keep="first")`. -/
def to_hourly_table (df : List HourlyRaw) : List HourlyRow :=
  dedupByKey (fun r => (r.date, r.hour, r.borough)) (df.filterMap hourlyClean)

structure EventsRaw where
  date : Option Nat
  borough : Option String
  event_count : Option Frac

structure EventsRow where
  date : Nat
  borough : String
  event_count : Int
deriving DecidableEq

/-- Row-wise `to_events_table` cleaning (`clean.py` lines 177–221). -/
def eventsClean (r : EventsRaw) : Option EventsRow :=
  match r.date, boroughClean r.borough with
  | some d, some b => some ⟨d, b, eventCountClean r.event_count⟩
  | _, _ => none

/-- `to_events_table` (lines 177–221): clean rows, then
`drop_duplicates(subset=["date", "borough"], keep="first")`. -/
def to_events_table (df : List EventsRaw) : List EventsRow :=
  dedupByKey (fun r => (r.date, r.borough)) (df.filterMap eventsClean)

theorem dedupByKeyGo_sublist {α κ : Type} [DecidableEq κ] (key : α → κ) :
    ∀ (seen : List κ) (l : List α), (dedupByKeyGo key seen l).Sublist l := by
  intro seen l
  induction l generalizing seen with
  | nil => exact List.Sublist.refl []
  | cons a l ih =>
    rw [dedupByKeyGo]
    by_cases h : key a ∈ seen
    · rw [if_pos h]
      exact (ih seen).trans (List.sublist_cons_self a l)
    · rw [if_neg h]
      exact List.Sublist.cons₂ a (ih (key a :: seen))

theorem dedupByKey_sublist {α κ : Type} [DecidableEq κ] (key : α → κ)
    (l : List α) : (dedupByKey key l).Sublist l :=
  dedupByKeyGo_sublist key [] l

theorem Frac.toRat_ofInt (n : Int) : (Frac.ofInt n).toRat = (n : ℚ) := by
  unfold Frac.ofInt Frac.toRat
  simp

/-- C8: after normalisation, every non-missing `tmax_f` lies in
`[-30, 120]`, every `tmin_f` in `[-50, 100]`, precipitation and snow are
non-negative, every riders count is non-negative; concretely, a weather
record with `tmax_f = 200` is clipped to `120`, a ridership record with
`riders = -5` is clipped to `0`, and a missing riders value is filled
with `0`. -/
theorem normalize_bounds_c8 :
    (∀ (df : List WeatherRaw) (r : WeatherRow), r ∈ to_weather_table df →
      (∀ v : Frac, r.tmax_f = some v → (-30 : ℚ) ≤ v.toRat ∧ v.toRat ≤ 120) ∧
      (∀ v : Frac, r.tmin_f = some v → (-50 : ℚ) ≤ v.toRat ∧ v.toRat ≤ 100) ∧
      (∀ v : Frac, r.prcp_in = some v → 0 ≤ v.toRat) ∧
      (∀ v : Frac, r.snow_in = some v → 0 ≤ v.toRat)) ∧
    (∀ (df : List RidershipRaw) (r : RidershipRow),
      r ∈ to_ridership_table df → 0 ≤ r.riders) ∧
    (to_weather_table
        [⟨some 20250601, some "USW00094728", some (Frac.ofInt 200),
          some (Frac.ofInt 50), some (Frac.ofInt 0), some (Frac.ofInt 0)⟩] =
      [⟨20250601, "USW00094728", some (Frac.ofInt 120), some (Frac.ofInt 50),
        some (Frac.ofInt 0), some (Frac.ofInt 0)⟩]) ∧
    (to_ridership_table
        [⟨some 20250601, some "subway", some (Frac.ofInt (-5)), some "src"⟩] =
      [⟨20250601, "subway", 0, "src"⟩]) ∧
    (to_ridership_table [⟨some 20250601, some "bus", none, some "src"⟩] =
      [⟨20250601, "bus", 0, "src"⟩]) := by
  refine ⟨?_, ?_, by decide, by decide, by decide⟩
  · intro df r hr
    have hmem : r ∈ df.filterMap weatherClean := by
      rw [to_weather_table] at hr
      exact (dedupByKey_sublist (fun r => r.date) (df.filterMap weatherClean)).subset hr
    rcases List.mem_filterMap.mp hmem with ⟨raw, _, hclean⟩
    cases hd : raw.date with
    | none =>
      unfold weatherClean at hclean
      rw [hd] at hclean
      cases hclean
    | some d =>
      unfold weatherClean at hclean
      rw [hd] at hclean
      injection hclean with h
      subst h
      refine ⟨?_, ?_, ?_, ?_⟩
      · intro v hv
        rcases Option.map_eq_some'.mp hv with ⟨a, _, hva⟩
        subst hva
        constructor
        · refine Frac.toRat_clipHi_ge _ ?_ ?_
          · rw [Frac.toRat_ofInt]
            norm_num
          · have h1 := @Frac.toRat_clipLo_le (Frac.ofInt (-30)) a
            rw [Frac.toRat_ofInt] at h1
            exact_mod_cast h1
        · have h2 := @Frac.toRat_clipHi_le (Frac.ofInt 120)
            (Frac.clipLo (Frac.ofInt (-30)) a)
          rw [Frac.toRat_ofInt] at h2
          exact_mod_cast h2
      · intro v hv
        rcases Option.map_eq_some'.mp hv with ⟨a, _, hva⟩
        subst hva
        constructor
        · refine Frac.toRat_clipHi_ge _ ?_ ?_
          · rw [Frac.toRat_ofInt]
            norm_num
          · have h1 := @Frac.toRat_clipLo_le (Frac.ofInt (-50)) a
            rw [Frac.toRat_ofInt] at h1
            exact_mod_cast h1
        · have h2 := @Frac.toRat_clipHi_le (Frac.ofInt 100)
            (Frac.clipLo (Frac.ofInt (-50)) a)
          rw [Frac.toRat_ofInt] at h2
          exact_mod_cast h2
      · intro v hv
        rcases Option.map_eq_some'.mp hv with ⟨a, _, hva⟩
        subst hva
        have h1 := @Frac.toRat_clipLo_le Frac.zero a
        have hz : Frac.zero.toRat = 0 := by
          unfold Frac.zero Frac.toRat
          simp
        rw [hz] at h1
        exact h1
      · intro v hv
        rcases Option.map_eq_some'.mp hv with ⟨a, _, hva⟩
        subst hva
        have h1 := @Frac.toRat_clipLo_le Frac.zero a
        have hz : Frac.zero.toRat = 0 := by
          unfold Frac.zero Frac.toRat
          simp
        rw [hz] at h1
        exact h1
  · intro df r hr
    have hmem : r ∈ df.filterMap ridershipClean := by
      rw [to_ridership_table] at hr
      exact (dedupByKey_sublist (fun r => (r.date, r.mode))
        (df.filterMap ridershipClean)).subset hr
    rcases List.mem_filterMap.mp hmem with ⟨raw, _, hclean⟩
    cases hd : raw.date with
    | none =>
      unfold ridershipClean at hclean
      rw [hd] at hclean
      cases hclean
    | some d =>
      unfold ridershipClean at hclean
      rw [hd] at hclean
      injection hclean with h
      subst h
      exact le_max_left 0 _

/-- Witness for C8 at the concrete clipped weather row: the clipped
`tmax_f` value 120 indeed lies within the documented range. -/
theorem normalize_bounds_c8_witness :
    (-30 : ℚ) ≤ (Frac.ofInt 120).toRat ∧ (Frac.ofInt 120).toRat ≤ 120 :=
  (normalize_bounds_c8.1
      [⟨some 20250601, some "USW00094728", some (Frac.ofInt 200),
        some (Frac.ofInt 50), some (Frac.ofInt 0), some (Frac.ofInt 0)⟩]
      ⟨20250601, "USW00094728", some (Frac.ofInt 120), some (Frac.ofInt 50),
        some (Frac.ofInt 0), some (Frac.ofInt 0)⟩
      (by decide)).1 (Frac.ofInt 120) (by decide)

/-- C9 counterexample: none of the `clean.py` normalizers sorts its
output — `to_hourly_table` preserves input row order, so two valid rows
arriving in descending date order leave in descending date order
(20250602 before 20250601), not ascending by natural key as the claim
requires. -/
theorem to_hourly_table_c9_counterexample :
    to_hourly_table
        [⟨some 20250602, some 8, some "MN", some (Frac.ofInt 1), some "s"⟩,
         ⟨some 20250601, some 8, some "MN", some (Frac.ofInt 1), some "s"⟩] =
      [⟨20250602, 8, "Manhattan", 1, "s"⟩, ⟨20250601, 8, "Manhattan", 1, "s"⟩] ∧
    ¬ ((20250602 : Nat) ≤ 20250601) := by
  decide

/-- C9 amended: each `to_*_table` normalizer emits its rows in input
order (its output is a sublist of the row-wise cleaned input — the
dedup keeps first occurrences and never reorders), so any pairwise
ordering of the cleaned input rows — in particular ascending natural
key, which the extractors establish by sorting/grouping before
`to_*_table` runs — carries over to the output; the normalizers
themselves do not sort. -/
theorem normalize_order_c9_amended :
    (∀ df : List RidershipRaw,
      (to_ridership_table df).Sublist (df.filterMap ridershipClean)) ∧
    (∀ df : List WeatherRaw,
      (to_weather_table df).Sublist (df.filterMap weatherClean)) ∧
    (∀ df : List HourlyRaw,
      (to_hourly_table df).Sublist (df.filterMap hourlyClean)) ∧
    (∀ df : List EventsRaw,
      (to_events_table df).Sublist (df.filterMap eventsClean)) ∧
    (∀ (df : List RidershipRaw) (le : RidershipRow → RidershipRow → Prop),
      (df.filterMap ridershipClean).Pairwise le →
        (to_ridership_table df).Pairwise le) ∧
    (∀ (df : List WeatherRaw) (le : WeatherRow → WeatherRow → Prop),
      (df.filterMap weatherClean).Pairwise le →
        (to_weather_table df).Pairwise le) ∧
    (∀ (df : List HourlyRaw) (le : HourlyRow → HourlyRow → Prop),
      (df.filterMap hourlyClean).Pairwise le →
        (to_hourly_table df).Pairwise le) ∧
    (∀ (df : List EventsRaw) (le : EventsRow → EventsRow → Prop),
      (df.filterMap eventsClean).Pairwise le →
        (to_events_table df).Pairwise le) := by
  refine ⟨fun df => dedupByKey_sublist _ _, fun df => dedupByKey_sublist _ _,
    fun df => dedupByKey_sublist _ _, fun df => dedupByKey_sublist _ _,
    ?_, ?_, ?_, ?_⟩ <;>
    intro df le h <;>
    exact List.Pairwise.sublist (dedupByKey_sublist _ _) h

/-- Witness for C9 amended at a concrete events input already ascending
by natural key: the normalized output is ascending as well. -/
theorem normalize_order_c9_amended_witness :
    (to_events_table
        [⟨some 1, some "BK", some (Frac.ofInt 2)⟩,
         ⟨some 2, some "MN", some (Frac.ofInt 1)⟩]).Pairwise
      (fun a b => a.date ≤ b.date) :=
  normalize_order_c9_amended.2.2.2.2.2.2.2
    [⟨some 1, some "BK", some (Frac.ofInt 2)⟩,
     ⟨some 2, some "MN", some (Frac.ofInt 1)⟩]
    (fun a b => a.date ≤ b.date) (by decide)

/-! ## Parsing helpers

`pd.to_datetime` / `pd.to_numeric` on the ISO-formatted and decimal
string cells these APIs serve.  A timestamp is encoded as the natural
number `yyyymmdd * 10^6 + hh * 10^4 + mm * 10^2 + ss`, a date as
`yyyymmdd`; on valid encodings numeric order is chronological order. -/

def digitVal (c : Char) : Option Nat :=
  if c.isDigit then some (c.toNat - 48) else none

def parseDigits2 (a b : Char) : Option Nat :=
  match digitVal a, digitVal b with
  | some x, some y => some (10 * x + y)
  | _, _ => none

def parseDigits4 (a b c d : Char) : Option Nat :=
  match parseDigits2 a b, parseDigits2 c d with
  | some x, some y => some (100 * x + y)
  | _, _ => none

def mkTs (y mo d h mi s : Nat) : Option Nat :=
  if 1 ≤ mo ∧ mo ≤ 12 ∧ 1 ≤ d ∧ d ≤ 31 ∧ h ≤ 23 ∧ mi ≤ 59 ∧ s ≤ 59 then
    some (((y * 100 + mo) * 100 + d) * 1000000 + h * 10000 + mi * 100 + s)
  else none

/-- `pd.to_datetime(errors="coerce")` on the ISO forms used by these
feeds: `YYYY-MM-DD` or `YYYY-MM-DDTHH:MM:SS`; anything else is `NaT`. -/
def parseTs (str : String) : Option Nat :=
  match str.data with
  | [y1, y2, y3, y4, '-', m1, m2, '-', d1, d2] =>
    match parseDigits4 y1 y2 y3 y4, parseDigits2 m1 m2, parseDigits2 d1 d2 with
    | some y, some mo, some d => mkTs y mo d 0 0 0
    | _, _, _ => none
  | [y1, y2, y3, y4, '-', m1, m2, '-', d1, d2, 'T',
     h1, h2, ':', n1, n2, ':', s1, s2] =>
    match parseDigits4 y1 y2 y3 y4, parseDigits2 m1 m2, parseDigits2 d1 d2,
        parseDigits2 h1 h2, parseDigits2 n1 n2, parseDigits2 s1 s2 with
    | some y, some mo, some d, some h, some mi, some s => mkTs y mo d h mi s
    | _, _, _, _, _, _ => none
  | _ => none

/-- `pd.to_datetime(...).dt.date`. -/
def parseDateCell (s : String) : Option Nat :=
  (parseTs s).map (fun ts => ts / 1000000)

def natOfDigitsGo (acc : Nat) : List Char → Option Nat
  | [] => some acc
  | c :: cs =>
    match digitVal c with
    | some v => natOfDigitsGo (10 * acc + v) cs
    | none => none

def parseUnsignedFrac (cs : List Char) : Option Frac :=
  match cs.dropWhile Char.isDigit with
  | [] =>
    if (cs.takeWhile Char.isDigit).isEmpty then none
    else (natOfDigitsGo 0 cs).map (fun n => ⟨(n : Int), 1, Nat.one_pos⟩)
  | '.' :: fp =>
    if fp.all Char.isDigit ∧ ¬ (cs.takeWhile Char.isDigit).isEmpty then
      match natOfDigitsGo 0 (cs.takeWhile Char.isDigit), natOfDigitsGo 0 fp with
      | some i, some f =>
        some ⟨((i * 10 ^ fp.length + f : Nat) : Int), 10 ^ fp.length,
          pow_pos (by norm_num) fp.length⟩
      | _, _ => none
    else none
  | _ => none

/-- `pd.to_numeric(errors="coerce")` on a string cell, for the decimal
forms these feeds serve (optional sign, digits, optional fraction);
anything else coerces to missing. -/
def parseFrac (str : String) : Option Frac :=
  match (strTrim str).data with
  | '-' :: rest => (parseUnsignedFrac rest).map (fun f => ⟨-f.num, f.den, f.dpos⟩)
  | '+' :: rest => parseUnsignedFrac rest
  | rest => parseUnsignedFrac rest

/-! ## Hourly shaping — `_shape_and_aggregate`
(`src/extract/mta_hourly.py` lines 53–120)

A raw Socrata page is a column list plus rows of field→string cells.
The function trims column names, resolves the timestamp/borough/
ridership columns (`_pick`, plus a loose borough fallback), returns
empty when any is unresolved, parses and window-filters timestamps,
derives `(date, hour)`, keeps the borough as the raw string, coerces
ridership, then `groupby(["date", "hour", "borough"]).sum()` — group
keys sorted ascending, NaN summands skipped — and tags the source
dataset. -/

/-- `_TS_CANDS` (`mta_hourly.py` line 25). -/
def TS_CANDS : List String :=
  ["transit_timestamp", "timestamp", "datetime", "date_time", "time", "dt"]

/-- `_BORO_CANDS` (`mta_hourly.py` lines 28–31). -/
def HOURLY_BORO_CANDS : List String :=
  ["borough", "borough_name", "boroname", "complex_borough",
   "station_complex_borough", "station_borough", "boroughdesc",
   "borough_desc", "boro"]

/-- `_RID_CANDS` (`mta_hourly.py` lines 34–37). -/
def RID_CANDS : List String :=
  ["ridership", "rides", "entries", "count", "total", "ridership_total",
   "total_ridership", "ridership_estimate", "ridership_count", "value"]

/-- Borough column resolution (`mta_hourly.py` lines 74–81): `_pick`
over `_BORO_CANDS`, then the last-ditch loop taking any column whose
lowercased name contains `"boro"` or `"borough"`. -/
def pickHourlyBoroughCol (cols : List String) : Option String :=
  match pickExact HOURLY_BORO_CANDS cols with
  | some c => some c
  | none =>
    cols.find? (fun c =>
      strContains (strLower c) "boro" || strContains (strLower c) "borough")

/-- A raw Socrata page: its column names, and its rows as field→cell
association lists (a missing field is a NaN cell). -/
structure RawDf where
  cols : List String
  rows : List (List (String × String))

/-- One row's cell under a column name. -/
def cell (row : List (String × String)) (c : String) : Option String :=
  row.lookup c

/-- Output shape of `_shape_and_aggregate`. -/
structure ShapeRow where
  date : Nat
  hour : Nat
  borough : String
  riders : Frac
  source : String
deriving DecidableEq

/-- Ascending order on the `(date, hour, borough)` group key (pandas
sorts group keys; strings compare by code point). -/
def keyTupLe (a b : Nat × Nat × String) : Prop :=
  a.1 < b.1 ∨ (a.1 = b.1 ∧
    (a.2.1 < b.2.1 ∨ (a.2.1 = b.2.1 ∧ strLtB b.2.2 a.2.2 = false)))

instance : DecidableRel keyTupLe := fun a b => by
  unfold keyTupLe
  infer_instance

/-- `_shape_and_aggregate(df, url_base, start_date, end_date)`
(`mta_hourly.py` lines 53–120); `startDate`/`endDate` are the encoded
dates of the ISO strings passed in (the mask bounds are
`start_dateT00:00:00` and `end_dateT23:59:59`). -/
def shape_and_aggregate (df : RawDf) (urlBase : String)
    (startDate endDate : Nat) : List ShapeRow :=
  match pickExact TS_CANDS (df.cols.map strTrim),
      pickHourlyBoroughCol (df.cols.map strTrim),
      pickExact RID_CANDS (df.cols.map strTrim) with
  | some tsCol, some borCol, some ridCol =>
    if (df.cols.map strTrim).contains borCol then
      List.map
        (fun k => ⟨k.1, k.2.1, k.2.2,
          (((((df.rows.map (fun r => r.map (fun kv => (strTrim kv.1, kv.2)))).filterMap
                (fun r => ((cell r tsCol).bind parseTs).map (fun ts => (ts, r)))).filter
              (fun p => decide (startDate * 1000000 ≤ p.1 ∧
                p.1 ≤ endDate * 1000000 + 235959))).map
            (fun p => ((p.1 / 1000000, p.1 % 1000000 / 10000,
              (cell p.2 borCol).getD "nan"), (cell p.2 ridCol).bind parseFrac))).filter
            (fun p => decide (p.1 = k))).foldl
            (fun acc p => Frac.add acc (p.2.getD Frac.zero)) Frac.zero,
          "data.ny.gov/" ++
            (if strContains urlBase "wujg-7c2s" then "wujg-7c2s" else "5wq4-mkjj")⟩)
        (List.insertionSort keyTupLe
          (dedupByKey (fun k => k)
            (((((df.rows.map (fun r => r.map (fun kv => (strTrim kv.1, kv.2)))).filterMap
                  (fun r => ((cell r tsCol).bind parseTs).map (fun ts => (ts, r)))).filter
                (fun p => decide (startDate * 1000000 ≤ p.1 ∧
                  p.1 ≤ endDate * 1000000 + 235959))).map
              (fun p => (p.1 / 1000000, p.1 % 1000000 / 10000,
                (cell p.2 borCol).getD "nan"))))))
    else []
  | _, _, _ => []

/-- A shaped row re-entering the cleaning layer (`to_hourly_table`), as
`daily_job.py`/`backfill.py` feed the extractor output to the
normalizer. -/
def shapeToHourlyRaw (r : ShapeRow) : HourlyRaw :=
  ⟨some r.date, some (r.hour : Int), some r.borough, some r.riders, some r.source⟩

/-- The spec scenario's raw hourly page, with its literal field names
`ts`, `boro`, `riders`. -/
def c7RawDf : RawDf :=
  ⟨["ts", "boro", "riders"],
   [[("ts", "2025-06-01T08:00:00"), ("boro", "MN"), ("riders", "120")],
    [("ts", "2025-06-01T08:00:00"), ("boro", "MN"), ("riders", "30")]]⟩

/-- C7 counterexample: the scenario's field names are not recognised —
`"ts"` is not among `_TS_CANDS` and `"riders"` is not among
`_RID_CANDS` — so `_shape_and_aggregate` returns an empty frame and the
full normalize path yields no record at all, not the claimed single
record with riders 150. -/
theorem shape_c7_counterexample :
    shape_and_aggregate c7RawDf "https://data.ny.gov/resource/wujg-7c2s"
        20250601 20250601 = [] ∧
    to_hourly_table
        ((shape_and_aggregate c7RawDf "https://data.ny.gov/resource/wujg-7c2s"
          20250601 20250601).map shapeToHourlyRaw) = [] := by
  constructor
  · decide
  · decide

/-- The same two duplicate raw rows under the dataset's recognised field
names (`transit_timestamp`, `boro`, `ridership`). -/
def c7GoodDf : RawDf :=
  ⟨["transit_timestamp", "boro", "ridership"],
   [[("transit_timestamp", "2025-06-01T08:00:00"), ("boro", "MN"),
     ("ridership", "120")],
    [("transit_timestamp", "2025-06-01T08:00:00"), ("boro", "MN"),
     ("ridership", "30")]]⟩

/-- C7 amended: duplicate-key resolution by summation happens in the
extract-side aggregation (`_shape_and_aggregate`), keyed by the *raw*
borough string, while `clean.py` resolves remaining duplicates
keep-first (weather keeps the first row per date).  With the dataset's
recognised field names, the two duplicate raw rows (riders 120 and 30)
aggregate to one `(2025-06-01, 8, "MN", 150)` row, which
`to_hourly_table` then canonicalises to `(2025-06-01, 8, Manhattan,
150)`; and `to_weather_table` retains the first occurrence per date. -/
theorem shape_c7_amended :
    shape_and_aggregate c7GoodDf "https://data.ny.gov/resource/wujg-7c2s"
        20250601 20250601 =
      [⟨20250601, 8, "MN", Frac.ofInt 150, "data.ny.gov/wujg-7c2s"⟩] ∧
    to_hourly_table
        ((shape_and_aggregate c7GoodDf "https://data.ny.gov/resource/wujg-7c2s"
          20250601 20250601).map shapeToHourlyRaw) =
      [⟨20250601, 8, "Manhattan", 150, "data.ny.gov/wujg-7c2s"⟩] ∧
    to_weather_table
        [⟨some 20250601, some "A", some (Frac.ofInt 50), some (Frac.ofInt 40),
          some (Frac.ofInt 0), some (Frac.ofInt 0)⟩,
         ⟨some 20250601, some "B", some (Frac.ofInt 60), some (Frac.ofInt 40),
          some (Frac.ofInt 0), some (Frac.ofInt 0)⟩] =
      [⟨20250601, "A", some (Frac.ofInt 50), some (Frac.ofInt 40),
        some (Frac.ofInt 0), some (Frac.ofInt 0)⟩] := by
  refine ⟨by decide, by decide, by decide⟩

/-! ## Daily fetch — `fetch_mta_daily`
(`src/extract/mta_daily.py` lines 92–214)

The function issues exactly one `_http_get` call (lines 122–126) with
query parameters `{"$order": "date ASC", "$limit": 50000}` — no
`$where` filter and no `$offset`/paging.  The requested
`[start_date, end_date]` window is applied locally in pandas (lines
138–142) after parsing; the server, honouring `$limit`, returns at most
the first 50 000 rows of the dataset, so rows beyond those never reach
the local filter.  Then the long shape (a `mode` column, lines
147–174) or the wide shape (separate subway/bus columns melted long,
lines 179–209) is normalised; an unrecognised shape raises
(`none`). -/

/-- Socrata query parameters relevant to `fetch_mta_daily`. -/
structure SocrataParams where
  order : Option String
  limit : Option Nat
  whereClause : Option String
  offset : Option Nat
deriving DecidableEq

/-- The parameters of the single request `fetch_mta_daily` issues
(lines 122–126). -/
def mtaDailyParams : SocrataParams := ⟨some "date ASC", some 50000, none, none⟩

/-- The full request sequence of one `fetch_mta_daily` call: exactly
one page, no paging loop. -/
def mtaDailyRequests : List SocrataParams := [mtaDailyParams]

/-- A Socrata server holding `data`, answering a request: it returns
the stored rows (in stored order) truncated to `$limit`. -/
def socrataServe (data : List (List (String × String)))
    (p : SocrataParams) : List (List (String × String)) :=
  data.take (p.limit.getD data.length)

/-- `DATE_CANDS` (`mta_daily.py` line 31). -/
def DATE_CANDS : List String := ["date", "as_of", "report_date"]

/-- `LONG_VALUE_CANDS` (`mta_daily.py` line 34). -/
def LONG_VALUE_CANDS : List String :=
  ["riders", "ridership", "count", "value", "total"]

/-- `SUBWAY_CANDS` (`mta_daily.py` lines 17–21). -/
def SUBWAY_CANDS : List String :=
  ["subways_total_estimated_ridership", "subway_total_estimated_ridership",
   "subways", "subway_ridership"]

/-- `BUS_CANDS` (`mta_daily.py` lines 24–28). -/
def BUS_CANDS : List String :=
  ["buses_total_estimated_ridership", "buses_total_ridership",
   "buses", "bus_ridership"]

/-- `pd.DataFrame.from_records` column set: the union of the records'
field names in order of first appearance. -/
def colsOfRecords (recs : List (List (String × String))) : List String :=
  recs.foldl (fun acc r =>
    acc ++ ((r.map Prod.fst).filter (fun k => decide (k ∉ acc)))) []

/-- `_normalize_mode` (`mta_daily.py` lines 76–89) on one cell:
`astype(str).str.strip().str.lower()`, map `subways`→`subway`,
`buses`→`bus`, drop anything outside {subway, bus}. -/
def normalizeModeCell (v : Option String) : Option String :=
  let s := strLower (strTrim (v.getD "nan"))
  let m := if s = "subways" then "subway" else if s = "buses" then "bus" else s
  if m = "subway" ∨ m = "bus" then some m else none

/-- One row of the tidy `['date', 'mode', 'riders', 'source']` output. -/
structure DailyOut where
  date : Nat
  mode : String
  riders : Option Frac
  source : String
deriving DecidableEq

/-- `sort_values(["date", "mode"])` order. -/
def dailyOutLe (a b : DailyOut) : Prop :=
  a.date < b.date ∨ (a.date = b.date ∧ strLtB b.mode a.mode = false)

instance : DecidableRel dailyOutLe := fun a b => by
  unfold dailyOutLe
  infer_instance

/-- Date parse and local window filter (lines 136–142): parse the
detected date column (`NaT` rows fall out of the window mask), keep
rows whose date lies in `[sdate, edate]`. -/
def mtaDailyWindow (dateCol : String) (sdate edate : Nat)
    (recs : List (List (String × String))) :
    List (Nat × List (String × String)) :=
  recs.filterMap (fun r =>
    ((cell r dateCol).bind parseDateCell).bind (fun d =>
      if sdate ≤ d ∧ d ≤ edate then some (d, r) else none))

/-- Long-shape normalisation (lines 147–174): normalise `mode`, coerce
the value column, drop rows with unmappable mode (`dropna` on mode; the
date is already non-missing after the window mask). -/
def mtaDailyLong (valCol : String)
    (windowed : List (Nat × List (String × String))) : List DailyOut :=
  windowed.filterMap (fun p =>
    (normalizeModeCell (cell p.2 "mode")).map (fun m =>
      ⟨p.1, m, (cell p.2 valCol).bind parseFrac, "data.ny.gov/sayj-mze2"⟩))

/-- Wide-shape normalisation (lines 179–209): melt the subway and bus
columns into long rows. -/
def mtaDailyWide (subCol busCol : String)
    (windowed : List (Nat × List (String × String))) : List DailyOut :=
  windowed.map (fun p =>
    (⟨p.1, "subway", (cell p.2 subCol).bind parseFrac,
      "data.ny.gov/sayj-mze2"⟩ : DailyOut)) ++
  windowed.map (fun p =>
    (⟨p.1, "bus", (cell p.2 busCol).bind parseFrac,
      "data.ny.gov/sayj-mze2"⟩ : DailyOut))

/-- Post-response processing of `fetch_mta_daily` (lines 127–214) on
the decoded records; `none` models the `RuntimeError` paths. -/
def fetch_mta_daily_process (recs : List (List (String × String)))
    (sdate edate : Nat) : Option (List DailyOut) :=
  if recs.isEmpty then some []
  else if (colsOfRecords recs).contains "mode" then
    match pickExact LONG_VALUE_CANDS (colsOfRecords recs) with
    | none => none
    | some valCol =>
      some (List.insertionSort dailyOutLe (mtaDailyLong valCol
        (mtaDailyWindow ((pickExact DATE_CANDS (colsOfRecords recs)).getD "date")
          sdate edate recs)))
  else
    match pickExact SUBWAY_CANDS (colsOfRecords recs),
        pickExact BUS_CANDS (colsOfRecords recs) with
    | some subCol, some busCol =>
      some (List.insertionSort dailyOutLe (mtaDailyWide subCol busCol
        (mtaDailyWindow ((pickExact DATE_CANDS (colsOfRecords recs)).getD "date")
          sdate edate recs)))
    | _, _ => none

/-- `fetch_mta_daily(start_date, end_date)` against a server holding
`data`: one request with `mtaDailyParams`, then local processing of the
served page. -/
def fetch_mta_daily_model (data : List (List (String × String)))
    (sdate edate : Nat) : Option (List DailyOut) :=
  fetch_mta_daily_process (socrataServe data mtaDailyParams) sdate edate

theorem mtaDailyWindow_mem {dateCol : String} {sdate edate : Nat}
    {recs : List (List (String × String))} {p : Nat × List (String × String)}
    (hp : p ∈ mtaDailyWindow dateCol sdate edate recs) :
    sdate ≤ p.1 ∧ p.1 ≤ edate := by
  rcases List.mem_filterMap.mp hp with ⟨r0, _, hf⟩
  rcases Option.bind_eq_some.mp hf with ⟨d, _, hif⟩
  by_cases hc : sdate ≤ d ∧ d ≤ edate
  · rw [if_pos hc] at hif
    injection hif with h
    rw [← h]
    exact hc
  · rw [if_neg hc] at hif
    cases hif

theorem mtaDailyLong_mem {valCol : String}
    {windowed : List (Nat × List (String × String))} {r : DailyOut}
    (hr : r ∈ mtaDailyLong valCol windowed) :
    ∃ p ∈ windowed, r.date = p.1 := by
  rcases List.mem_filterMap.mp hr with ⟨p, hp, hf⟩
  rcases Option.map_eq_some'.mp hf with ⟨m, _, hm⟩
  exact ⟨p, hp, by rw [← hm]⟩

theorem mtaDailyWide_mem {subCol busCol : String}
    {windowed : List (Nat × List (String × String))} {r : DailyOut}
    (hr : r ∈ mtaDailyWide subCol busCol windowed) :
    ∃ p ∈ windowed, r.date = p.1 := by
  rcases List.mem_append.mp hr with h | h <;>
    rcases List.mem_map.mp h with ⟨p, hp, hf⟩ <;>
    exact ⟨p, hp, by rw [← hf]⟩

/-- C10: `fetch_mta_daily` issues a single request whose parameters are
`$order = date ASC`, `$limit = 50000`, with no server-side `$where`
date filter and no `$offset` paging; its result is insensitive to any
dataset rows beyond the first 50 000 the server would store (they are
silently absent); and the date window is enforced locally — every
returned row's date lies in `[sdate, edate]`. -/
theorem fetch_mta_daily_c10 :
    (mtaDailyRequests = [mtaDailyParams] ∧ mtaDailyParams.whereClause = none ∧
      mtaDailyParams.offset = none ∧ mtaDailyParams.limit = some 50000 ∧
      mtaDailyParams.order = some "date ASC") ∧
    (∀ (data : List (List (String × String))) (sdate edate : Nat),
      fetch_mta_daily_model data sdate edate =
        fetch_mta_daily_model (data.take 50000) sdate edate) ∧
    (∀ (data : List (List (String × String))) (sdate edate : Nat)
        (out : List DailyOut) (r : DailyOut),
      fetch_mta_daily_model data sdate edate = some out → r ∈ out →
        sdate ≤ r.date ∧ r.date ≤ edate) := by
  refine ⟨⟨rfl, rfl, rfl, rfl, rfl⟩, ?_, ?_⟩
  · intro data sdate edate
    simp [fetch_mta_daily_model, socrataServe, mtaDailyParams, List.take_take]
  · intro data sdate edate out r h hr
    rw [fetch_mta_daily_model, fetch_mta_daily_process] at h
    split at h
    · injection h with h2
      rw [← h2] at hr
      cases hr
    · split at h
      · split at h
        · cases h
        · injection h with h2
          rw [← h2] at hr
          have hmem := (List.perm_insertionSort dailyOutLe _).mem_iff.mp hr
          rcases mtaDailyLong_mem hmem with ⟨p, hp, hdate⟩
          rw [hdate]
          exact mtaDailyWindow_mem hp
      · split at h
        · injection h with h2
          rw [← h2] at hr
          have hmem := (List.perm_insertionSort dailyOutLe _).mem_iff.mp hr
          rcases mtaDailyWide_mem hmem with ⟨p, hp, hdate⟩
          rw [hdate]
          exact mtaDailyWindow_mem hp
        · cases h

/-- Witness for C10 at a concrete one-record dataset: the single
returned row's date lies in the requested window. -/
theorem fetch_mta_daily_c10_witness :
    (20250601 : Nat) ≤ 20250601 ∧ (20250601 : Nat) ≤ 20250602 :=
  fetch_mta_daily_c10.2.2
    [[("date", "2025-06-01"), ("mode", "subway"), ("riders", "5")]]
    20250601 20250602
    [⟨20250601, "subway", some (Frac.ofInt 5), "data.ny.gov/sayj-mze2"⟩]
    ⟨20250601, "subway", some (Frac.ofInt 5), "data.ny.gov/sayj-mze2"⟩
    (by decide) (by decide)

end MTADash
